import Mathlib

/-! Shallow embedding of the MarketDash indicator pipeline (`src/app.py`).

Prices are modelled as rational numbers (Python floats carry exact decimal
literals in the scenarios of interest); the Python `None` marker for
"not yet computable" becomes `Option`.  `np.std` is the population standard
deviation, embedded via `Real.sqrt` of a rational variance, so the Bollinger
upper/lower bands live in `ℝ`.  Python exceptions raised by
`process_stock_data` (KeyError / ValueError while reading a selected day's
record, KeyError while reading `Meta Data`) become an `Except` error type;
the `return None` fall-through becomes a successful `none`.
-/

set_option autoImplicit false

namespace MarketDash

/-- Python function `calculate_sma(prices, window)` from `src/app.py`.
For `i ≥ window - 1` the Python slice `prices[i-window+1:i+1]` is
`(prices.drop (i + 1 - window)).take window` (the start index is
non-negative there, so plain `Nat` subtraction agrees). -/
def calculate_sma (prices : List ℚ) (window : ℕ) : List (Option ℚ) :=
  if prices.length < window then
    List.replicate prices.length none
  else
    (List.range prices.length).map fun i =>
      if i < window - 1 then none
      else some (((prices.drop (i + 1 - window)).take window).sum / window)

/-- The `for i in range(window, len(prices))` loop of `calculate_ema`:
each step appends `price * multiplier + prev * (1 - multiplier)`. -/
def emaLoop (multiplier : ℚ) : ℚ → List ℚ → List ℚ
  | _, [] => []
  | prev, p :: rest =>
      let e := p * multiplier + prev * (1 - multiplier)
      e :: emaLoop multiplier e rest

/-- Python function `calculate_ema(prices, window)` from `src/app.py`. -/
def calculate_ema (prices : List ℚ) (window : ℕ) : List (Option ℚ) :=
  if prices.length < window then
    List.replicate prices.length none
  else
    let multiplier : ℚ := 2 / ((window : ℚ) + 1)
    let seed : ℚ := ((prices.take window).sum) / window
    List.replicate (window - 1) none ++
      (seed :: emaLoop multiplier seed (prices.drop window)).map some

/-- One Wilder smoothing step: `(avg * (window - 1) + x) / window`. -/
def wilder (window : ℕ) (avg x : ℚ) : ℚ :=
  (avg * ((window : ℚ) - 1) + x) / window

/-- The value appended inside the RSI loop: `100` when the smoothed average
loss is zero, otherwise `100 - 100 / (1 + avg_gain / avg_loss)`. -/
def rsiPoint (avg_gain avg_loss : ℚ) : ℚ :=
  if avg_loss = 0 then 100 else 100 - 100 / (1 + avg_gain / avg_loss)

/-- The `for i in range(window, len(gains))` loop of `calculate_rsi`, walking
the remaining (gain, loss) pairs while updating both Wilder averages. -/
def rsiLoop (window : ℕ) : ℚ → ℚ → List (ℚ × ℚ) → List (Option ℚ)
  | _, _, [] => []
  | g, l, (gi, li) :: rest =>
      let g' := wilder window g gi
      let l' := wilder window l li
      some (rsiPoint g' l') :: rsiLoop window g' l' rest

/-- Python function `calculate_rsi(prices, window)` from `src/app.py`. -/
def calculate_rsi (prices : List ℚ) (window : ℕ) : List (Option ℚ) :=
  if prices.length < window + 1 then
    List.replicate prices.length none
  else
    let deltas := (prices.zip prices.tail).map fun p => p.2 - p.1
    let gains := deltas.map fun d => if 0 < d then d else 0
    let losses := deltas.map fun d => if d < 0 then -d else 0
    let avg_gain := ((gains.take window).sum) / window
    let avg_loss := ((losses.take window).sum) / window
    none :: (List.replicate window none ++
      rsiLoop window avg_gain avg_loss ((gains.drop window).zip (losses.drop window)))

/-- Mean of a list, as `np.std` uses it (`sum / length`; `0` on `[]`, where
`ℚ` division by zero is `0`). -/
def popMean (l : List ℚ) : ℚ := l.sum / l.length

/-- Population variance, `mean((x - mean)^2)`. -/
def popVariance (l : List ℚ) : ℚ :=
  ((l.map fun x => (x - popMean l) ^ 2).sum) / l.length

/-- Embedding of `np.std`: the population standard deviation. -/
noncomputable def popStd (l : List ℚ) : ℝ := Real.sqrt (popVariance l)

/-- Python function `calculate_bollinger_bands(prices, window, num_std)` from `src/app.py`,
returning `(upper_band, sma, lower_band)`.  In the defined branch the code
reads `sma[i]`, which there is the trailing-window mean, written out
directly. -/
noncomputable def calculate_bollinger_bands (prices : List ℚ) (window : ℕ)
    (num_std : ℝ) : List (Option ℝ) × List (Option ℚ) × List (Option ℝ) :=
  if prices.length < window then
    (List.replicate prices.length none, List.replicate prices.length none,
      List.replicate prices.length none)
  else
    let sma := calculate_sma prices window
    let upper_band := (List.range prices.length).map fun i =>
      if i < window - 1 then none
      else
        let win := (prices.drop (i + 1 - window)).take window
        some ((((win.sum / window : ℚ) : ℝ)) + num_std * popStd win)
    let lower_band := (List.range prices.length).map fun i =>
      if i < window - 1 then none
      else
        let win := (prices.drop (i + 1 - window)).take window
        some ((((win.sum / window : ℚ) : ℝ)) - num_std * popStd win)
    (upper_band, sma, lower_band)

/-- The `macd_line` loop of `calculate_macd`: pointwise `EMA(fast) - EMA(slow)`,
undefined where either operand is undefined. -/
def macdLine (prices : List ℚ) (fast slow : ℕ) : List (Option ℚ) :=
  let ema_fast := calculate_ema prices fast
  let ema_slow := calculate_ema prices slow
  (List.range prices.length).map fun i =>
    match ema_fast.getD i none, ema_slow.getD i none with
    | some a, some b => some (a - b)
    | _, _ => none

/-- The `signal_line` block of `calculate_macd`: compact the defined macd
values, and when at least `signal` of them exist, left-pad `EMA(signal)` of
the compacted list; otherwise an all-undefined series. -/
def signalLine (macd_line : List (Option ℚ)) (signal : ℕ) : List (Option ℚ) :=
  let macd_values := macd_line.filterMap id
  if signal ≤ macd_values.length then
    List.replicate (macd_line.length - macd_values.length) (none : Option ℚ) ++
      calculate_ema macd_values signal
  else
    List.replicate macd_line.length (none : Option ℚ)

/-- The `histogram` loop of `calculate_macd`: pointwise
`macd_line - signal_line`, undefined where either side is undefined. -/
def macdHistogram (macd_line signal_line : List (Option ℚ)) : List (Option ℚ) :=
  (List.range macd_line.length).map fun i =>
    match macd_line.getD i none, signal_line.getD i none with
    | some a, some b => some (a - b)
    | _, _ => none

/-- Python function `calculate_macd(prices, fast, slow, signal)` from `src/app.py`,
returning `(macd_line, signal_line, histogram)`. -/
def calculate_macd (prices : List ℚ) (fast slow signal : ℕ) :
    List (Option ℚ) × List (Option ℚ) × List (Option ℚ) :=
  let macd_line := macdLine prices fast slow
  let signal_line := signalLine macd_line signal
  let histogram := macdHistogram macd_line signal_line
  (macd_line, signal_line, histogram)

/-- One day's raw record from the `'Time Series (Daily)'` table.  Each Python
field is a numeric string; a field that is absent or fails `float`/`int`
parsing is modelled as `none`. -/
structure DayRecord where
  open_ : Option ℚ
  high : Option ℚ
  low : Option ℚ
  close : Option ℚ
  volume : Option ℤ
deriving DecidableEq

/-- The `'Meta Data'` object; each subkey may be absent. -/
structure MetaDataRec where
  symbol : Option String
  lastRefreshed : Option String
deriving DecidableEq

/-- The raw API payload handed to `process_stock_data`.  `timeSeries = none`
models a payload without the `'Time Series (Daily)'` key; the table itself is
an association list from date string to record.  `metaData = none` models a
payload without the `'Meta Data'` key. -/
structure StockData where
  timeSeries : Option (List (String × DayRecord))
  metaData : Option MetaDataRec

/-- Python exceptions escaping `process_stock_data`: `malformedRecord` for the
KeyError/ValueError raised while reading or parsing a selected day's fields,
`metaKeyError` for the KeyError raised while reading `'Meta Data'` subkeys. -/
inductive ProcError where
  | malformedRecord
  | metaKeyError
deriving DecidableEq

/-- The chronologically ascending window built by the first half of
`process_stock_data`. -/
structure Window where
  dates : List String
  prices : List ℚ
  volumes : List ℤ
  highs : List ℚ
  lows : List ℚ
  opens : List ℚ
deriving DecidableEq

/-- Dict access `time_series[date]`: first association for `date`. -/
def lookupRecord (ts : List (String × DayRecord)) (d : String) : Option DayRecord :=
  (ts.find? fun p => p.1 = d).map Prod.snd

/-- Python line `sorted(time_series.keys(), reverse=True)[:60]` then `.reverse()`. -/
def selectedDates (ts : List (String × DayRecord)) : List String :=
  (((ts.map Prod.fst).insertionSort fun a b => b ≤ a).take 60).reverse

/-- One iteration of the window-building loop: look the date up and parse the
five fields, in the order the Python body reads them (close, volume, high,
low, open).  Any missing or unparsable piece raises, modelled as
`malformedRecord`. -/
def parseRow (ts : List (String × DayRecord)) (d : String) :
    Except ProcError (String × ℚ × ℤ × ℚ × ℚ × ℚ) :=
  match lookupRecord ts d with
  | none => .error .malformedRecord
  | some r =>
    match r.close, r.volume, r.high, r.low, r.open_ with
    | some c, some v, some hi, some lo, some o => .ok (d, c, v, hi, lo, o)
    | _, _, _, _, _ => .error .malformedRecord

/-- Effectful map over a list in `Except`, mirroring the Python loop that
stops at the first raising iteration. -/
def exMapM {ε α β : Type} (f : α → Except ε β) : List α → Except ε (List β)
  | [] => .ok []
  | x :: xs =>
    match f x with
    | .error e => .error e
    | .ok y =>
      match exMapM f xs with
      | .error e => .error e
      | .ok ys => .ok (y :: ys)

/-- The window-building first half of `process_stock_data`: select the 60 most
recent dates, parse each selected record into the six parallel series. -/
def buildWindow (ts : List (String × DayRecord)) : Except ProcError Window :=
  match exMapM (parseRow ts) (selectedDates ts) with
  | .error e => .error e
  | .ok rows =>
    .ok { dates := rows.map fun r => r.1
          prices := rows.map fun r => r.2.1
          volumes := rows.map fun r => r.2.2.1
          highs := rows.map fun r => r.2.2.2.1
          lows := rows.map fun r => r.2.2.2.2.1
          opens := rows.map fun r => r.2.2.2.2.2 }

/-- The dict `process_stock_data` returns on success. -/
structure StockResult where
  dates : List String
  prices : List ℚ
  volumes : List ℤ
  highs : List ℚ
  lows : List ℚ
  opens : List ℚ
  sma_20 : List (Option ℚ)
  sma_50 : List (Option ℚ)
  ema_12 : List (Option ℚ)
  ema_26 : List (Option ℚ)
  rsi : List (Option ℚ)
  bollinger_upper : List (Option ℝ)
  bollinger_middle : List (Option ℚ)
  bollinger_lower : List (Option ℝ)
  macd_line : List (Option ℚ)
  macd_signal : List (Option ℚ)
  macd_histogram : List (Option ℚ)
  symbol : String
  last_refreshed : String

/-- Python function `process_stock_data(data)` from `src/app.py`.  `.ok none` is the final
`return None` (no `'Time Series (Daily)'` key); `.error` is a propagated
Python exception. -/
noncomputable def process_stock_data (data : StockData) :
    Except ProcError (Option StockResult) :=
  match data.timeSeries with
  | none => .ok none
  | some ts =>
    match buildWindow ts with
    | .error e => .error e
    | .ok w =>
      let prices := w.prices
      let sma_20 := calculate_sma prices 20
      let sma_50 := calculate_sma prices 50
      let ema_12 := calculate_ema prices 12
      let ema_26 := calculate_ema prices 26
      let rsi := calculate_rsi prices 14
      let bb := calculate_bollinger_bands prices 20 2
      let macd := calculate_macd prices 12 26 9
      let display_length := min 30 w.dates.length
      let start_index := w.dates.length - display_length
      match data.metaData with
      | none => .error .metaKeyError
      | some md =>
        match md.symbol, md.lastRefreshed with
        | some sy, some lr =>
            .ok (some
              { dates := w.dates.drop start_index
                prices := w.prices.drop start_index
                volumes := w.volumes.drop start_index
                highs := w.highs.drop start_index
                lows := w.lows.drop start_index
                opens := w.opens.drop start_index
                sma_20 := sma_20.drop start_index
                sma_50 := sma_50.drop start_index
                ema_12 := ema_12.drop start_index
                ema_26 := ema_26.drop start_index
                rsi := rsi.drop start_index
                bollinger_upper := bb.1.drop start_index
                bollinger_middle := bb.2.1.drop start_index
                bollinger_lower := bb.2.2.drop start_index
                macd_line := macd.1.drop start_index
                macd_signal := macd.2.1.drop start_index
                macd_histogram := macd.2.2.drop start_index
                symbol := sy
                last_refreshed := lr })
        | _, _ => .error .metaKeyError

/-! ### Concrete example inputs, used to exercise the orchestrator -/

/-- A fully populated one-day record. -/
def exampleDay : DayRecord :=
  { open_ := some 1, high := some 1, low := some 1, close := some 1,
    volume := some 1 }

/-- A record whose `'4. close'` field is missing (or unparsable). -/
def badDay : DayRecord :=
  { open_ := some 1, high := some 1, low := some 1, close := none,
    volume := some 1 }

def exampleTable : List (String × DayRecord) := [("2024-01-02", exampleDay)]

def badTable : List (String × DayRecord) := [("2024-01-02", badDay)]

def exampleMeta : MetaDataRec :=
  { symbol := some "IBM", lastRefreshed := some "2024-01-02" }

def emptyWindow : Window :=
  { dates := [], prices := [], volumes := [], highs := [], lows := [],
    opens := [] }

def exampleWindow : Window :=
  { dates := ["2024-01-02"], prices := [1], volumes := [1], highs := [1],
    lows := [1], opens := [1] }

/-- The bundle `process_stock_data` produces from `exampleTable`. -/
def exampleResult : StockResult :=
  { dates := ["2024-01-02"], prices := [1], volumes := [1], highs := [1],
    lows := [1], opens := [1], sma_20 := [none], sma_50 := [none],
    ema_12 := [none], ema_26 := [none], rsi := [none],
    bollinger_upper := [none], bollinger_middle := [none],
    bollinger_lower := [none], macd_line := [none], macd_signal := [none],
    macd_histogram := [none], symbol := "IBM",
    last_refreshed := "2024-01-02" }

/-- The bundle `process_stock_data` produces from an empty dated table. -/
def emptyResult (sy lr : String) : StockResult :=
  { dates := [], prices := [], volumes := [], highs := [], lows := [],
    opens := [], sma_20 := [], sma_50 := [], ema_12 := [], ema_26 := [],
    rsi := [], bollinger_upper := [], bollinger_middle := [],
    bollinger_lower := [], macd_line := [], macd_signal := [],
    macd_histogram := [], symbol := sy, last_refreshed := lr }

/-! ### Length lemmas for the indicator library -/

theorem emaLoop_length (m : ℚ) (g : ℚ) (l : List ℚ) :
    (emaLoop m g l).length = l.length := by
  induction l generalizing g with
  | nil => rfl
  | cons p rest ih => simp [emaLoop, ih]

theorem calculate_sma_length (prices : List ℚ) (window : ℕ) :
    (calculate_sma prices window).length = prices.length := by
  unfold calculate_sma
  split <;> simp

theorem calculate_ema_length (prices : List ℚ) (window : ℕ) (hw : 0 < window) :
    (calculate_ema prices window).length = prices.length := by
  unfold calculate_ema
  split
  · simp
  · rename_i h
    simp only [List.length_append, List.length_replicate, List.length_map,
      List.length_cons, emaLoop_length, List.length_drop]
    omega

theorem rsiLoop_length (w : ℕ) (g l : ℚ) (ps : List (ℚ × ℚ)) :
    (rsiLoop w g l ps).length = ps.length := by
  induction ps generalizing g l with
  | nil => rfl
  | cons p rest ih => simpa [rsiLoop] using ih _ _

theorem calculate_rsi_length (prices : List ℚ) (window : ℕ) :
    (calculate_rsi prices window).length = prices.length := by
  unfold calculate_rsi
  split
  · simp
  · rename_i h
    simp only [List.length_cons, List.length_append, List.length_replicate,
      rsiLoop_length, List.length_zip, List.length_drop, List.length_map,
      List.length_tail]
    omega

theorem calculate_bollinger_bands_length (prices : List ℚ) (window : ℕ) (k : ℝ) :
    (calculate_bollinger_bands prices window k).1.length = prices.length ∧
    (calculate_bollinger_bands prices window k).2.1.length = prices.length ∧
    (calculate_bollinger_bands prices window k).2.2.length = prices.length := by
  unfold calculate_bollinger_bands
  split
  · simp
  · simp [calculate_sma_length]

theorem macdLine_length (prices : List ℚ) (fast slow : ℕ) :
    (macdLine prices fast slow).length = prices.length := by
  unfold macdLine
  simp

theorem signalLine_length (m : List (Option ℚ)) (signal : ℕ) (hg : 0 < signal) :
    (signalLine m signal).length = m.length := by
  unfold signalLine
  simp only
  split
  · rename_i h
    have hle := List.length_filterMap_le (id (α := Option ℚ)) m
    simp only [List.length_append, List.length_replicate,
      calculate_ema_length _ _ hg]
    omega
  · simp

theorem macdHistogram_length (m s : List (Option ℚ)) :
    (macdHistogram m s).length = m.length := by
  unfold macdHistogram
  simp

theorem macd_line_length (prices : List ℚ) (fast slow signal : ℕ) :
    (calculate_macd prices fast slow signal).1.length = prices.length := by
  simp [calculate_macd, macdLine_length]

theorem macd_signal_length (prices : List ℚ) (fast slow signal : ℕ)
    (hg : 0 < signal) :
    (calculate_macd prices fast slow signal).2.1.length = prices.length := by
  simp [calculate_macd, signalLine_length _ _ hg, macdLine_length]

theorem macd_histogram_length (prices : List ℚ) (fast slow signal : ℕ) :
    (calculate_macd prices fast slow signal).2.2.length = prices.length := by
  simp [calculate_macd, macdHistogram_length, macdLine_length]

/-! ### Short-input (all-undefined) behaviour -/

theorem calculate_sma_short (prices : List ℚ) (window : ℕ)
    (h : prices.length < window) :
    calculate_sma prices window = List.replicate prices.length none := by
  unfold calculate_sma
  rw [if_pos h]

theorem calculate_ema_short (prices : List ℚ) (window : ℕ)
    (h : prices.length < window) :
    calculate_ema prices window = List.replicate prices.length none := by
  unfold calculate_ema
  rw [if_pos h]

theorem calculate_rsi_short (prices : List ℚ) (window : ℕ)
    (h : prices.length < window + 1) :
    calculate_rsi prices window = List.replicate prices.length none := by
  unfold calculate_rsi
  rw [if_pos h]

theorem calculate_bollinger_bands_short (prices : List ℚ) (window : ℕ) (k : ℝ)
    (h : prices.length < window) :
    calculate_bollinger_bands prices window k =
      (List.replicate prices.length none, List.replicate prices.length none,
        List.replicate prices.length none) := by
  unfold calculate_bollinger_bands
  rw [if_pos h]

theorem getD_replicate_none {α : Type} (n i : ℕ) :
    (List.replicate n (none : Option α)).getD i none = none := by
  rw [List.getD_eq_getElem?_getD, List.getElem?_replicate]
  split <;> rfl

theorem range_map_none {α : Type} (n : ℕ) (f : ℕ → Option α)
    (h : ∀ i, i < n → f i = none) :
    (List.range n).map f = List.replicate n (none : Option α) := by
  apply List.ext_getElem?
  intro i
  rw [List.getElem?_map, List.getElem?_replicate]
  by_cases hi : i < n
  · rw [List.getElem?_range hi, if_pos hi, Option.map_some', h i hi]
  · rw [if_neg hi, List.getElem?_eq_none (by simpa using hi), Option.map_none']

theorem filterMap_id_replicate_none {α : Type} (n : ℕ) :
    (List.replicate n (none : Option α)).filterMap id = [] := by
  rw [List.filterMap_eq_nil_iff]
  intro a ha
  rw [List.eq_of_mem_replicate ha]
  rfl

theorem macdLine_short (prices : List ℚ) (fast slow : ℕ)
    (h : prices.length < fast ∨ prices.length < slow) :
    macdLine prices fast slow = List.replicate prices.length none := by
  unfold macdLine
  simp only
  apply range_map_none
  intro i _
  rcases h with h | h
  · have h1 : (calculate_ema prices fast).getD i none = none := by
      rw [calculate_ema_short prices fast h, getD_replicate_none]
    rw [h1]
  · have h1 : (calculate_ema prices slow).getD i none = none := by
      rw [calculate_ema_short prices slow h, getD_replicate_none]
    rw [h1]
    rcases (calculate_ema prices fast).getD i none <;> rfl

theorem signalLine_replicate_none (n : ℕ) (signal : ℕ) (hg : 0 < signal) :
    signalLine (List.replicate n none) signal = List.replicate n none := by
  unfold signalLine
  rw [filterMap_id_replicate_none]
  rw [if_neg (by simp only [List.length_nil]; omega)]
  simp

theorem macdHistogram_left_none (n : ℕ) (s : List (Option ℚ)) :
    macdHistogram (List.replicate n none) s = List.replicate n none := by
  unfold macdHistogram
  simp only [List.length_replicate]
  apply range_map_none
  intro i _
  rw [getD_replicate_none]

theorem calculate_macd_short (prices : List ℚ) (fast slow signal : ℕ)
    (hg : 0 < signal)
    (h : prices.length < fast ∨ prices.length < slow) :
    calculate_macd prices fast slow signal =
      (List.replicate prices.length none, List.replicate prices.length none,
        List.replicate prices.length none) := by
  unfold calculate_macd
  simp only
  rw [macdLine_short _ _ _ h, signalLine_replicate_none _ _ hg,
    macdHistogram_left_none]

/-! ### RSI helper lemmas -/

theorem wilder_nonneg (w : ℕ) (hw : 0 < w) (avg x : ℚ)
    (h1 : 0 ≤ avg) (h2 : 0 ≤ x) : 0 ≤ wilder w avg x := by
  unfold wilder
  apply div_nonneg _ (by positivity)
  have hw1 : (1 : ℚ) ≤ (w : ℚ) := by exact_mod_cast hw
  nlinarith

theorem rsiPoint_bounds (g l : ℚ) (hg : 0 ≤ g) (hl : 0 ≤ l) :
    0 ≤ rsiPoint g l ∧ rsiPoint g l ≤ 100 := by
  unfold rsiPoint
  split
  · norm_num
  · rename_i h
    have hl' : 0 < l := lt_of_le_of_ne hl (Ne.symm h)
    have hr : 0 ≤ g / l := div_nonneg hg hl'.le
    constructor
    · have hle : 100 / (1 + g / l) ≤ 100 := div_le_self (by norm_num) (by linarith)
      linarith
    · have hpos : 0 < 100 / (1 + g / l) := by positivity
      linarith

theorem rsiLoop_mem_isSome (w : ℕ) (g l : ℚ) (ps : List (ℚ × ℚ)) (x : Option ℚ)
    (hx : x ∈ rsiLoop w g l ps) : ∃ v, x = some v := by
  induction ps generalizing g l with
  | nil => simp [rsiLoop] at hx
  | cons p rest ih =>
      rcases p with ⟨gi, li⟩
      simp only [rsiLoop, List.mem_cons] at hx
      rcases hx with h | h
      · exact ⟨_, h⟩
      · exact ih _ _ h

theorem rsiLoop_mem_bounds (w : ℕ) (hw : 0 < w) (g l : ℚ) (ps : List (ℚ × ℚ))
    (hg : 0 ≤ g) (hl : 0 ≤ l) (hps : ∀ p ∈ ps, 0 ≤ p.1 ∧ 0 ≤ p.2)
    (x : Option ℚ) (hx : x ∈ rsiLoop w g l ps) :
    ∃ g' l', 0 ≤ g' ∧ 0 ≤ l' ∧ x = some (rsiPoint g' l') := by
  induction ps generalizing g l with
  | nil => simp [rsiLoop] at hx
  | cons p rest ih =>
      rcases p with ⟨gi, li⟩
      have hp := hps (gi, li) (List.mem_cons_self _ _)
      have hg' := wilder_nonneg w hw g gi hg hp.1
      have hl' := wilder_nonneg w hw l li hl hp.2
      simp only [rsiLoop, List.mem_cons] at hx
      rcases hx with h | h
      · exact ⟨_, _, hg', hl', h⟩
      · exact ih _ _ hg' hl' (fun q hq => hps q (List.mem_cons_of_mem _ hq)) h

/-- C1: proved. Every Indicator Library function is length-preserving and total
(in this embedding each is a total function, the counterpart of "never
raises"); for every positive window parameter an input shorter than the
required window yields an all-undefined series of the input's length. -/
theorem indicator_library_length_invariant (prices : List ℚ)
    (w fast slow signal : ℕ) (k : ℝ)
    (hw : 0 < w) (_hf : 0 < fast) (_hs : 0 < slow) (hg : 0 < signal) :
    ((calculate_sma prices w).length = prices.length ∧
      (prices.length < w →
        calculate_sma prices w = List.replicate prices.length none)) ∧
    ((calculate_ema prices w).length = prices.length ∧
      (prices.length < w →
        calculate_ema prices w = List.replicate prices.length none)) ∧
    ((calculate_rsi prices w).length = prices.length ∧
      (prices.length < w + 1 →
        calculate_rsi prices w = List.replicate prices.length none)) ∧
    ((calculate_bollinger_bands prices w k).1.length = prices.length ∧
      (calculate_bollinger_bands prices w k).2.1.length = prices.length ∧
      (calculate_bollinger_bands prices w k).2.2.length = prices.length ∧
      (prices.length < w →
        calculate_bollinger_bands prices w k =
          (List.replicate prices.length none, List.replicate prices.length none,
            List.replicate prices.length none))) ∧
    ((calculate_macd prices fast slow signal).1.length = prices.length ∧
      (calculate_macd prices fast slow signal).2.1.length = prices.length ∧
      (calculate_macd prices fast slow signal).2.2.length = prices.length ∧
      (prices.length < fast ∨ prices.length < slow →
        calculate_macd prices fast slow signal =
          (List.replicate prices.length none, List.replicate prices.length none,
            List.replicate prices.length none))) := by
  refine ⟨⟨calculate_sma_length _ _, calculate_sma_short _ _⟩,
    ⟨calculate_ema_length _ _ hw, calculate_ema_short _ _⟩,
    ⟨calculate_rsi_length _ _, calculate_rsi_short _ _⟩,
    ⟨(calculate_bollinger_bands_length _ _ _).1,
      (calculate_bollinger_bands_length _ _ _).2.1,
      (calculate_bollinger_bands_length _ _ _).2.2,
      calculate_bollinger_bands_short _ _ _⟩,
    ⟨macd_line_length _ _ _ _, macd_signal_length _ _ _ _ hg,
      macd_histogram_length _ _ _ _, calculate_macd_short _ _ _ _ hg⟩⟩

theorem indicator_library_length_invariant_witness :
    (calculate_sma [(1 : ℚ), 2] 3).length = 2 ∧
    calculate_rsi [(1 : ℚ), 2] 3 = [none, none] ∧
    (calculate_macd [(1 : ℚ), 2] 3 4 5).2.1.length = 2 :=
  ⟨(indicator_library_length_invariant [1, 2] 3 3 4 5 0 (by decide) (by decide)
      (by decide) (by decide)).1.1,
   (indicator_library_length_invariant [1, 2] 3 3 4 5 0 (by decide) (by decide)
      (by decide) (by decide)).2.2.1.2 (by decide),
   (indicator_library_length_invariant [1, 2] 3 3 4 5 0 (by decide) (by decide)
      (by decide) (by decide)).2.2.2.2.2.1⟩

/-- C7: proved. For at least `window` prices, the EMA at its seed index
`window - 1` equals the SMA there, both the arithmetic mean of the first
`window` prices. -/
theorem ema_seed_eq_sma (prices : List ℚ) (window : ℕ)
    (hw : 0 < window) (hlen : window ≤ prices.length) :
    (calculate_ema prices window)[window - 1]? =
      some (some (((prices.take window).sum) / window)) ∧
    (calculate_sma prices window)[window - 1]? =
      some (some (((prices.take window).sum) / window)) := by
  constructor
  · unfold calculate_ema
    rw [if_neg (by omega)]
    rw [List.getElem?_append, if_neg (by simp)]
    simp
  · unfold calculate_sma
    rw [if_neg (by omega)]
    rw [List.getElem?_map, List.getElem?_range (by omega), Option.map_some']
    rw [if_neg (by omega)]
    have h0 : window - 1 + 1 - window = 0 := by omega
    rw [h0, List.drop_zero]

theorem ema_seed_eq_sma_witness :
    (calculate_ema [(1 : ℚ), 2, 3] 2)[1]? = some (some (3 / 2)) ∧
    (calculate_sma [(1 : ℚ), 2, 3] 2)[1]? = some (some (3 / 2)) := by
  have h := ema_seed_eq_sma [1, 2, 3] 2 (by decide) (by decide)
  have hv : (([(1 : ℚ), 2, 3].take 2).sum) / ((2 : ℕ) : ℚ) = 3 / 2 := by norm_num
  rw [hv] at h
  exact h

/-- C4: proved. `calculate_rsi` output has length `n`; an entry is the undefined
marker exactly when its index is below `window + 1` or the whole input is
shorter than `window + 1` (in which case every entry is undefined). -/
theorem rsi_undefined_padding (prices : List ℚ) (window : ℕ) (hw : 0 < window) :
    (calculate_rsi prices window).length = prices.length ∧
    ∀ i, i < prices.length →
      ((calculate_rsi prices window)[i]? = some none ↔
        (i < window + 1 ∨ prices.length < window + 1)) := by
  refine ⟨calculate_rsi_length _ _, ?_⟩
  intro i hi
  by_cases hshort : prices.length < window + 1
  · rw [calculate_rsi_short _ _ hshort, List.getElem?_replicate, if_pos hi]
    simp [hshort]
  · unfold calculate_rsi
    rw [if_neg hshort]
    simp only
    match i with
    | 0 =>
        simp only [List.getElem?_cons_zero]
        simp [Nat.succ_pos]
    | j + 1 =>
        rw [List.getElem?_cons_succ, List.getElem?_append]
        by_cases hj : j < window
        · rw [if_pos (by simpa using hj)]
          rw [List.getElem?_replicate, if_pos hj]
          simp [hj]
        · rw [if_neg (by simpa using hj)]
          simp only [List.length_replicate]
          have hloopLen : (rsiLoop window
              ((((((prices.zip prices.tail).map fun p => p.2 - p.1).map
                  fun d => if 0 < d then d else 0).take window).sum) / window)
              ((((((prices.zip prices.tail).map fun p => p.2 - p.1).map
                  fun d => if d < 0 then -d else 0).take window).sum) / window)
              (((((prices.zip prices.tail).map fun p => p.2 - p.1).map
                  fun d => if 0 < d then d else 0).drop window).zip
                ((((prices.zip prices.tail).map fun p => p.2 - p.1).map
                  fun d => if d < 0 then -d else 0).drop window))).length
              = prices.length - 1 - window := by
            rw [rsiLoop_length]
            simp only [List.length_zip, List.length_drop, List.length_map,
              List.length_tail]
            omega
          have hjw : j - window < prices.length - 1 - window := by omega
          rw [List.getElem?_eq_getElem (by omega)]
          have hmem := List.getElem_mem (l := rsiLoop window
              ((((((prices.zip prices.tail).map fun p => p.2 - p.1).map
                  fun d => if 0 < d then d else 0).take window).sum) / window)
              ((((((prices.zip prices.tail).map fun p => p.2 - p.1).map
                  fun d => if d < 0 then -d else 0).take window).sum) / window)
              (((((prices.zip prices.tail).map fun p => p.2 - p.1).map
                  fun d => if 0 < d then d else 0).drop window).zip
                ((((prices.zip prices.tail).map fun p => p.2 - p.1).map
                  fun d => if d < 0 then -d else 0).drop window)))
              (n := j - window) (by omega)
          rcases rsiLoop_mem_isSome _ _ _ _ _ hmem with ⟨v, hv⟩
          rw [hv]
          simp
          omega

theorem rsi_undefined_padding_witness :
    (calculate_rsi [(1 : ℚ), 2, 3] 1).length = 3 ∧
    ((calculate_rsi [(1 : ℚ), 2, 3] 1)[2]? = some none ↔ (2 < 1 + 1 ∨ 3 < 1 + 1)) :=
  ⟨(rsi_undefined_padding [1, 2, 3] 1 (by decide)).1,
   (rsi_undefined_padding [1, 2, 3] 1 (by decide)).2 2 (by decide)⟩

/-- C6: proved. With at least `window + 1` prices, every defined RSI value lies in
`[0, 100]`; the value emitted at a step whose smoothed average loss is zero is
exactly `100`; and the RSI loop never emits the undefined marker. -/
theorem rsi_range (prices : List ℚ) (window : ℕ)
    (hw : 0 < window) (hn : window + 1 ≤ prices.length) :
    (∀ v : ℚ, some v ∈ calculate_rsi prices window → 0 ≤ v ∧ v ≤ 100) ∧
    (∀ g l : ℚ, l = 0 → rsiPoint g l = 100) ∧
    (∀ (g l : ℚ) (ps : List (ℚ × ℚ)) (x : Option ℚ),
      x ∈ rsiLoop window g l ps → ∃ v, x = some v) := by
  refine ⟨?_, ?_, fun g l ps x hx => rsiLoop_mem_isSome _ _ _ _ _ hx⟩
  · intro v hv
    unfold calculate_rsi at hv
    rw [if_neg (by omega)] at hv
    simp only [List.mem_cons, List.mem_append] at hv
    rcases hv with h | h | h
    · exact absurd h (by simp)
    · exact absurd (List.eq_of_mem_replicate h) (by simp)
    · have hgain : ∀ x ∈ (((prices.zip prices.tail).map fun p => p.2 - p.1).map
          fun d => if 0 < d then d else 0), 0 ≤ x := by
        intro x hx
        rcases List.mem_map.1 hx with ⟨d, _, hd⟩
        rw [← hd]
        split <;> simp_all
        linarith
      have hloss : ∀ x ∈ (((prices.zip prices.tail).map fun p => p.2 - p.1).map
          fun d => if d < 0 then -d else 0), 0 ≤ x := by
        intro x hx
        rcases List.mem_map.1 hx with ⟨d, _, hd⟩
        rw [← hd]
        split <;> simp_all
        linarith
      have hg0 : (0:ℚ) ≤ (((((prices.zip prices.tail).map fun p => p.2 - p.1).map
          fun d => if 0 < d then d else 0).take window).sum) / window := by
        apply div_nonneg _ (by positivity)
        exact List.sum_nonneg fun x hx => hgain x (List.mem_of_mem_take hx)
      have hl0 : (0:ℚ) ≤ (((((prices.zip prices.tail).map fun p => p.2 - p.1).map
          fun d => if d < 0 then -d else 0).take window).sum) / window := by
        apply div_nonneg _ (by positivity)
        exact List.sum_nonneg fun x hx => hloss x (List.mem_of_mem_take hx)
      have hps : ∀ p ∈ (((((prices.zip prices.tail).map fun p => p.2 - p.1).map
          fun d => if 0 < d then d else 0).drop window).zip
            ((((prices.zip prices.tail).map fun p => p.2 - p.1).map
          fun d => if d < 0 then -d else 0).drop window)), 0 ≤ p.1 ∧ 0 ≤ p.2 := by
        intro p hp
        rcases p with ⟨a, b⟩
        have hab := List.of_mem_zip hp
        exact ⟨hgain a (List.mem_of_mem_drop hab.1),
          hloss b (List.mem_of_mem_drop hab.2)⟩
      rcases rsiLoop_mem_bounds window hw _ _ _ hg0 hl0 hps _ h with
        ⟨g', l', hg', hl', hx⟩
      have hv' : v = rsiPoint g' l' := by
        injection hx
      rw [hv']
      exact rsiPoint_bounds g' l' hg' hl'
  · intro g l hl
    unfold rsiPoint
    rw [if_pos hl]

theorem countP_isNone_add_filterMap {α : Type} (m : List (Option α)) :
    m.countP Option.isNone + (m.filterMap id).length = m.length := by
  induction m with
  | nil => rfl
  | cons x xs ih =>
      cases x <;> simp [List.countP_cons, List.filterMap_cons] <;> omega

theorem signalLine_eq_pad (m : List (Option ℚ)) (signal : ℕ) :
    signalLine m signal =
      List.replicate (m.countP Option.isNone) none ++
        calculate_ema (m.filterMap id) signal := by
  have hcount : m.countP Option.isNone = m.length - (m.filterMap id).length := by
    have h := countP_isNone_add_filterMap m
    omega
  have hle := List.length_filterMap_le (id (α := Option ℚ)) m
  unfold signalLine
  simp only
  split
  · rw [hcount]
  · rename_i h
    push_neg at h
    rw [calculate_ema_short _ _ h, hcount, ← List.replicate_add]
    congr 1
    omega

theorem macdHistogram_right_none (m : List (Option ℚ)) (n : ℕ) :
    macdHistogram m (List.replicate n none) = List.replicate m.length none := by
  unfold macdHistogram
  apply range_map_none
  intro i _
  rw [getD_replicate_none]
  rcases m.getD i none <;> rfl

/-- C2: proved. The MACD signal line is `EMA(9)` of the compacted defined macd-line
values, left-padded with one undefined marker per undefined macd-line entry;
when fewer than `9` defined macd values exist, signal line and histogram are
entirely undefined. -/
theorem macd_signal_compact_then_pad (prices : List ℚ) :
    (calculate_macd prices 12 26 9).2.1 =
      List.replicate (((calculate_macd prices 12 26 9).1).countP Option.isNone)
          none ++
        calculate_ema (((calculate_macd prices 12 26 9).1).filterMap id) 9 ∧
    ((((calculate_macd prices 12 26 9).1).filterMap id).length < 9 →
      (calculate_macd prices 12 26 9).2.1 = List.replicate prices.length none ∧
      (calculate_macd prices 12 26 9).2.2 = List.replicate prices.length none) := by
  simp only [calculate_macd]
  constructor
  · exact signalLine_eq_pad _ _
  · intro h
    have hs : signalLine (macdLine prices 12 26) 9 =
        List.replicate (macdLine prices 12 26).length none := by
      unfold signalLine
      simp only
      rw [if_neg (by omega)]
    refine ⟨?_, ?_⟩
    · rw [hs, macdLine_length]
    · rw [hs, macdHistogram_right_none, macdLine_length]

theorem macd_signal_compact_then_pad_witness :
    (calculate_macd [] 12 26 9).2.1 = [] ∧
    (calculate_macd [] 12 26 9).2.2 = [] :=
  (macd_signal_compact_then_pad []).2 (by decide)

/-- C8: proved. Wherever all three Bollinger bands are defined, the upper band is
the middle band plus `k` population standard deviations of the trailing
window, the lower band is the middle band minus the same quantity, and for
`k ≥ 0` the bands are ordered `lower ≤ middle ≤ upper`. -/
theorem bollinger_band_relation (prices : List ℚ) (window : ℕ) (k : ℝ) (i : ℕ)
    (hk : 0 ≤ k) (u l : ℝ) (m : ℚ)
    (hu : (calculate_bollinger_bands prices window k).1[i]? = some (some u))
    (hm : (calculate_bollinger_bands prices window k).2.1[i]? = some (some m))
    (hl : (calculate_bollinger_bands prices window k).2.2[i]? = some (some l)) :
    u = (m : ℝ) + k * popStd ((prices.drop (i + 1 - window)).take window) ∧
    l = (m : ℝ) - k * popStd ((prices.drop (i + 1 - window)).take window) ∧
    l ≤ (m : ℝ) ∧ (m : ℝ) ≤ u := by
  by_cases hshort : prices.length < window
  · rw [calculate_bollinger_bands_short _ _ _ hshort] at hu
    rw [List.getElem?_replicate] at hu
    split at hu <;> simp at hu
  · by_cases hi : i < prices.length
    · unfold calculate_bollinger_bands at hu hl
      rw [if_neg hshort] at hu hl
      simp only at hu hl
      rw [List.getElem?_map, List.getElem?_range hi, Option.map_some'] at hu hl
      unfold calculate_bollinger_bands at hm
      rw [if_neg hshort] at hm
      simp only at hm
      unfold calculate_sma at hm
      rw [if_neg hshort, List.getElem?_map, List.getElem?_range hi,
        Option.map_some'] at hm
      by_cases hiw : i < window - 1
      · rw [if_pos hiw] at hu
        simp at hu
      · rw [if_neg hiw] at hu hl hm
        simp only [Option.some_inj] at hu hl hm
        have hstd : 0 ≤ popStd ((prices.drop (i + 1 - window)).take window) :=
          Real.sqrt_nonneg _
        rw [← hu, ← hl, ← hm]
        refine ⟨rfl, rfl, ?_, ?_⟩ <;> nlinarith
    · unfold calculate_bollinger_bands at hu
      rw [if_neg hshort] at hu
      simp only at hu
      rw [List.getElem?_map, List.getElem?_eq_none (by simpa using hi)] at hu
      simp at hu

theorem bollinger_band_relation_witness :
    (1 : ℝ) - 2 * popStd [(1 : ℚ), 1] ≤ ((1 : ℚ) : ℝ) ∧
    ((1 : ℚ) : ℝ) ≤ 1 + 2 * popStd [(1 : ℚ), 1] := by
  have h := bollinger_band_relation [1, 1] 2 2 1 (by norm_num)
      (1 + 2 * popStd [(1 : ℚ), 1]) (1 - 2 * popStd [(1 : ℚ), 1]) 1
      (by norm_num [calculate_bollinger_bands])
      (by norm_num [calculate_bollinger_bands, calculate_sma])
      (by norm_num [calculate_bollinger_bands])
  exact ⟨h.2.2.1, h.2.2.2⟩

theorem rsi_range_witness :
    ((0 : ℚ) ≤ 100 ∧ (100 : ℚ) ≤ 100) ∧ rsiPoint 100 0 = 100 :=
  ⟨(rsi_range [1, 2, 3] 1 (by decide) (by decide)).1 100
      (by norm_num [calculate_rsi, rsiLoop, rsiPoint, wilder]),
   (rsi_range [1, 2, 3] 1 (by decide) (by decide)).2.1 100 0 rfl⟩

/-! ### Orchestrator helper lemmas -/

theorem parseRow_error_eq (ts : List (String × DayRecord)) (d : String)
    (e : ProcError) (h : parseRow ts d = .error e) : e = .malformedRecord := by
  unfold parseRow at h
  cases hl : lookupRecord ts d with
  | none =>
      rw [hl] at h
      injection h with h1
      exact h1.symm
  | some r =>
      rw [hl] at h
      obtain ⟨o, hi, lo, c, v⟩ := r
      cases c <;> cases v <;> cases hi <;> cases lo <;> cases o <;> simp_all

theorem exMapM_parseRow_ok_or (ts : List (String × DayRecord))
    (ds : List String) :
    (∃ rows, exMapM (parseRow ts) ds = .ok rows) ∨
      exMapM (parseRow ts) ds = .error .malformedRecord := by
  induction ds with
  | nil => exact .inl ⟨[], rfl⟩
  | cons d ds ih =>
      cases hd : parseRow ts d with
      | error e =>
          have he := parseRow_error_eq ts d e hd
          subst he
          right
          unfold exMapM
          rw [hd]
      | ok row =>
          rcases ih with ⟨rows, hrows⟩ | hbad
          · left
            refine ⟨row :: rows, ?_⟩
            unfold exMapM
            rw [hd, hrows]
          · right
            unfold exMapM
            rw [hd, hbad]

theorem exMapM_ok_mem {ε α β : Type} (f : α → Except ε β) (ds : List α)
    (rows : List β) (h : exMapM f ds = .ok rows) :
    ∀ d ∈ ds, ∃ y, f d = .ok y := by
  induction ds generalizing rows with
  | nil =>
      intro d hd
      exact absurd hd (by simp)
  | cons x xs ih =>
      intro d hd
      unfold exMapM at h
      cases hx : f x with
      | error e =>
          rw [hx] at h
          simp at h
      | ok y =>
          rw [hx] at h
          cases hxs : exMapM f xs with
          | error e =>
              rw [hxs] at h
              simp at h
          | ok ys =>
              rcases List.mem_cons.1 hd with rfl | hd2
              · exact ⟨y, hx⟩
              · exact ih ys hxs d hd2

theorem buildWindow_lengths (ts : List (String × DayRecord)) (w : Window)
    (h : buildWindow ts = .ok w) :
    w.prices.length = w.dates.length ∧ w.volumes.length = w.dates.length ∧
    w.highs.length = w.dates.length ∧ w.lows.length = w.dates.length ∧
    w.opens.length = w.dates.length := by
  unfold buildWindow at h
  cases hrows : exMapM (parseRow ts) (selectedDates ts) with
  | error e =>
      rw [hrows] at h
      simp at h
  | ok rows =>
      rw [hrows] at h
      injection h with h1
      subst h1
      simp

/-- C10: proved. A payload without the `'Time Series (Daily)'` key makes
`process_stock_data` return `none` successfully — no exception raised and no
indicator computed — leaving the caller to translate it into an error
response. -/
theorem missing_time_series_returns_none (md : Option MetaDataRec) :
    process_stock_data ⟨none, md⟩ = .ok none := rfl

theorem missing_time_series_returns_none_witness :
    process_stock_data ⟨none, some exampleMeta⟩ = .ok none :=
  missing_time_series_returns_none (some exampleMeta)

/-- C3 counterexample: On an empty dated table (metadata present),
`process_stock_data` returns a result bundle of all-empty series: it does
not raise any `InsufficientHistory`-style error — no such condition exists
in the code. -/
theorem empty_table_counterexample :
    process_stock_data ⟨some [], some exampleMeta⟩ =
      .ok (some (emptyResult "IBM" "2024-01-02")) := rfl

/-- C3 amended, proved: On the empty dated table the window builder returns
empty series, and the orchestrator — provided the `'Meta Data'` fields are
present — returns a normal result bundle whose every series is empty,
rather than raising. -/
theorem empty_table_returns_empty_bundle (md : MetaDataRec) (sy lr : String)
    (hsy : md.symbol = some sy) (hlr : md.lastRefreshed = some lr) :
    buildWindow [] = .ok emptyWindow ∧
    process_stock_data ⟨some [], some md⟩ = .ok (some (emptyResult sy lr)) := by
  obtain ⟨s0, l0⟩ := md
  dsimp only at hsy hlr
  subst hsy
  subst hlr
  exact ⟨rfl, rfl⟩

theorem empty_table_returns_empty_bundle_witness :
    buildWindow [] = .ok emptyWindow ∧
    process_stock_data ⟨some [], some exampleMeta⟩ =
      .ok (some (emptyResult "IBM" "2024-01-02")) :=
  empty_table_returns_empty_bundle exampleMeta "IBM" "2024-01-02" rfl rfl

/-- C9: proved. If any selected date's record is missing a required field (or
that field is non-numeric), the window builder — and with it the whole
`process_stock_data` request — fails with the malformed-record error; the
date is not silently dropped and no ragged series are returned. -/
theorem malformed_record_fails (ts : List (String × DayRecord))
    (md : Option MetaDataRec) (d : String) (r : DayRecord)
    (hd : d ∈ selectedDates ts) (hr : lookupRecord ts d = some r)
    (hbad : r.open_ = none ∨ r.high = none ∨ r.low = none ∨
      r.close = none ∨ r.volume = none) :
    buildWindow ts = .error .malformedRecord ∧
    process_stock_data ⟨some ts, md⟩ = .error .malformedRecord := by
  have hparse : parseRow ts d = .error .malformedRecord := by
    unfold parseRow
    rw [hr]
    obtain ⟨o, hi, lo, c, v⟩ := r
    dsimp only at hbad
    cases c <;> cases v <;> cases hi <;> cases lo <;> cases o <;> simp_all
  have hbw : buildWindow ts = .error .malformedRecord := by
    unfold buildWindow
    rcases exMapM_parseRow_ok_or ts (selectedDates ts) with ⟨rows, hrows⟩ | hbad2
    · exfalso
      rcases exMapM_ok_mem _ _ rows hrows d hd with ⟨y, hy⟩
      rw [hparse] at hy
      simp at hy
    · rw [hbad2]
  refine ⟨hbw, ?_⟩
  unfold process_stock_data
  dsimp only
  rw [hbw]

theorem malformed_record_fails_witness :
    buildWindow badTable = .error .malformedRecord ∧
    process_stock_data ⟨some badTable, none⟩ = .error .malformedRecord :=
  malformed_record_fails badTable none "2024-01-02" badDay (by decide) rfl
    (.inr (.inr (.inr (.inl rfl))))

/-- C5: proved. For a non-empty built window of length `L`, every series in the
orchestrator's successful output — dates, prices, volumes, highs, lows,
opens and the 11 indicator series — has length `min 30 L`, all obtained by
dropping the one shared start offset. -/
theorem orchestrator_trim_alignment (ts : List (String × DayRecord))
    (md : MetaDataRec) (w : Window) (r : StockResult)
    (hb : buildWindow ts = .ok w) (_hL : 0 < w.dates.length)
    (hp : process_stock_data ⟨some ts, some md⟩ = .ok (some r)) :
    r.dates.length = min 30 w.dates.length ∧
    r.prices.length = min 30 w.dates.length ∧
    r.volumes.length = min 30 w.dates.length ∧
    r.highs.length = min 30 w.dates.length ∧
    r.lows.length = min 30 w.dates.length ∧
    r.opens.length = min 30 w.dates.length ∧
    r.sma_20.length = min 30 w.dates.length ∧
    r.sma_50.length = min 30 w.dates.length ∧
    r.ema_12.length = min 30 w.dates.length ∧
    r.ema_26.length = min 30 w.dates.length ∧
    r.rsi.length = min 30 w.dates.length ∧
    r.bollinger_upper.length = min 30 w.dates.length ∧
    r.bollinger_middle.length = min 30 w.dates.length ∧
    r.bollinger_lower.length = min 30 w.dates.length ∧
    r.macd_line.length = min 30 w.dates.length ∧
    r.macd_signal.length = min 30 w.dates.length ∧
    r.macd_histogram.length = min 30 w.dates.length := by
  obtain ⟨hp1, hp2, hp3, hp4, hp5⟩ := buildWindow_lengths ts w hb
  have e12 := calculate_ema_length w.prices 12 (by norm_num)
  have e26 := calculate_ema_length w.prices 26 (by norm_num)
  have s20 := calculate_sma_length w.prices 20
  have s50 := calculate_sma_length w.prices 50
  have hrsi := calculate_rsi_length w.prices 14
  have hbb := calculate_bollinger_bands_length w.prices 20 2
  obtain ⟨hbb1, hbb2, hbb3⟩ := hbb
  have hm1 := macd_line_length w.prices 12 26 9
  have hm2 := macd_signal_length w.prices 12 26 9 (by norm_num)
  have hm3 := macd_histogram_length w.prices 12 26 9
  unfold process_stock_data at hp
  dsimp only at hp
  rw [hb] at hp
  obtain ⟨s0, l0⟩ := md
  cases s0 with
  | none =>
      dsimp only at hp
      simp at hp
  | some sy =>
      cases l0 with
      | none =>
          dsimp only at hp
          simp at hp
      | some lr =>
          dsimp only at hp
          injection hp with h1
          injection h1 with h2
          subst h2
          dsimp only
          refine ⟨?_, ?_, ?_, ?_, ?_, ?_, ?_, ?_, ?_, ?_, ?_, ?_, ?_, ?_, ?_,
            ?_, ?_⟩ <;>
            simp only [List.length_drop, e12, e26, s20, s50, hrsi, hbb1, hbb2,
              hbb3, hm1, hm2, hm3, hp1, hp2, hp3, hp4, hp5] <;>
            (clear hb e12 e26 s20 s50 hrsi hbb1 hbb2 hbb3 hm1 hm2 hm3 hp1 hp2
              hp3 hp4 hp5; omega)

theorem orchestrator_trim_alignment_witness :
    exampleResult.dates.length = min 30 exampleWindow.dates.length ∧
    exampleResult.macd_histogram.length = min 30 exampleWindow.dates.length :=
  ⟨(orchestrator_trim_alignment exampleTable exampleMeta exampleWindow
      exampleResult rfl (by decide) rfl).1,
   (orchestrator_trim_alignment exampleTable exampleMeta exampleWindow
      exampleResult rfl (by decide)
      rfl).2.2.2.2.2.2.2.2.2.2.2.2.2.2.2.2⟩

end MarketDash
